import Mathlib

/-!
Verification development for the COMP424 opening-move evaluation harness:
`evaluate_moves.py` (variant A, index mode) and `evaluate_moves_2.py`
(variant B, file mode).  The Python functions are shallowly embedded as
executable Lean definitions: text as `List Char`, boards as `List (List ℤ)`,
win rates as `ℚ`, the external simulator as an oracle function, and the
artifact filesystem as an association list.
-/

namespace MoveEval

/-- Python regex class `\s` restricted to the ASCII whitespace characters. -/
def isSpc (c : Char) : Bool :=
  c = ' ' || c = '\t' || c = '\n' || c = '\r' || c = '\x0b' || c = '\x0c'

/-- Python regex word character `\w` (ASCII fragment), used to decide `\b`. -/
def isWordChar (c : Char) : Bool :=
  c.isAlphanum || c = '_'

/-- A `\b` placed right after a word character holds exactly when the next
character is not a word character, or the input ends there. -/
def wordBoundaryNext : List Char → Bool
  | [] => true
  | c :: _ => !(isWordChar c)

/-- Case-insensitive literal match (the `re.I` flag on the literal parts of
the harness patterns): consume `pat` from the front of the input, returning
the remaining input on success. -/
def stripCI : List Char → List Char → Option (List Char)
  | [], l => some l
  | _ :: _, [] => none
  | p :: ps, c :: cs => if p.toLower = c.toLower then stripCI ps cs else none

/-- Value of a decimal digit string (the integer part of `m.group(1)`). -/
def digitsToNat (ds : List Char) : ℕ :=
  ds.foldl (fun a c => 10 * a + (c.toNat - 48)) 0

/-- Exact rational value of the decimal numeral with integer digits `ds` and
fractional digits `fs` (the value that Python `float(m.group(1))` yields). -/
def decValue (ds fs : List Char) : ℚ :=
  mkRat (digitsToNat ds * Nat.pow 10 fs.length + digitsToNat fs) (Nat.pow 10 fs.length)

/-- Regex fragment `(\d+(?:\.\d+)?)`: greedily take digits, then an optional
fractional part, returning the captured value and the rest of the input. -/
def matchNumber (l : List Char) : Option (ℚ × List Char) :=
  let ds := l.takeWhile Char.isDigit
  let rest := l.dropWhile Char.isDigit
  if ds.isEmpty then none
  else
    match rest with
    | '.' :: r2 =>
      let fs := r2.takeWhile Char.isDigit
      if fs.isEmpty then some (decValue ds [], rest)
      else some (decValue ds fs, r2.dropWhile Char.isDigit)
    | _ => some (decValue ds [], rest)

/-- Regex fragment `\s*[:=]?\s*(\d+(?:\.\d+)?)\s*%?` placed after a literal:
the trailing `\s*%?` always succeeds and does not affect the captured group,
so only the number is returned.  The greedy handling of `\s*` and `[:=]?` is
equivalent to Python backtracking here because neither `:`, `=` nor a digit
is whitespace. -/
def matchWinTail (r0 : List Char) : Option ℚ :=
  let r1 := r0.dropWhile isSpc
  let r2 := match r1 with
    | c :: t => if c = ':' || c = '=' then t else r1
    | [] => []
  let r3 := r2.dropWhile isSpc
  (matchNumber r3).map Prod.fst

/-- Attempt of `win percentage\s*[:=]?\s*(\d+(?:\.\d+)?)\s*%?` (the `win_re`
pattern of `parse_winrate`) at the current position. -/
def matchWinAt (l : List Char) : Option ℚ :=
  match stripCI "win percentage".data l with
  | none => none
  | some r0 => matchWinTail r0

/-- Attempt of `win percentage:?\s*[:=]?\s*(\d+(?:\.\d+)?)\s*%?` (the module
level `WINRATE_PATTERNS[0]`) at the current position; it differs from
`matchWinAt` only by the extra optional colon right after the literal. -/
def matchWin4At (l : List Char) : Option ℚ :=
  match stripCI "win percentage".data l with
  | none => none
  | some r0 =>
    matchWinTail (match r0 with | ':' :: t => t | _ => r0)

/-- Python `re.search`: try the pattern attempt `f` at every start position, left to
right, returning the first success. -/
def searchWith {α : Type} (f : List Char → Option α) : List Char → Option α
  | [] => none
  | c :: cs =>
    match f (c :: cs) with
    | some v => some v
    | none => searchWith f cs

/-- Attempt of `Player\s*<digits>\b` (the `line_player_re` pattern, `re.I`)
at the current position, returning the rest of the input after the match. -/
def playerAt (pdig : List Char) (l : List Char) : Option (List Char) :=
  match stripCI "player".data l with
  | none => none
  | some r0 =>
    let r1 := r0.dropWhile isSpc
    match stripCI pdig r1 with
    | none => none
    | some r2 => if wordBoundaryNext r2 then some r2 else none

/-- Python `str.splitlines` worker: accumulate the current line (reversed);
`\n`, `\r\n` and `\r` terminate a line, and a terminator at the very end of
the string does not open a final empty line. -/
def splitLinesAux : List Char → List Char → List (List Char)
  | [], cur => [cur.reverse]
  | '\r' :: '\n' :: rest, cur =>
    cur.reverse :: (if rest.isEmpty then [] else splitLinesAux rest [])
  | '\n' :: rest, cur =>
    cur.reverse :: (if rest.isEmpty then [] else splitLinesAux rest [])
  | '\r' :: rest, cur =>
    cur.reverse :: (if rest.isEmpty then [] else splitLinesAux rest [])
  | c :: rest, cur => splitLinesAux rest (c :: cur)

/-- Python `str.splitlines` (restricted to the `\n`, `\r\n`, `\r` line
terminators): the empty string yields no lines. -/
def splitLines : List Char → List (List Char)
  | [] => []
  | c :: cs => splitLinesAux (c :: cs) []

/-- Python `text.replace(',', '.')`: comma decimal separators become periods. -/
def normText (l : List Char) : List Char :=
  l.map (fun c => if c = ',' then '.' else c)

/-- The per-stage numeric normalization `val / 100.0 if val > 1.0 else val`;
the division by 100 is expressed through `mkRat` so that the definition stays
kernel-computable (`normVal_eq` below shows it is the plain division). -/
def normVal (v : ℚ) : ℚ :=
  if v > 1 then mkRat v.num (v.den * 100) else v

/-- First fallback stage of `parse_winrate`: scan the lines in order; on each
line that matches `line_player_re`, search the same line with `win_re` and
return its value if found, otherwise keep scanning. -/
def stage1 (pdig : List Char) : List (List Char) → Option ℚ
  | [] => none
  | ln :: rest =>
    if (searchWith (playerAt pdig) ln).isSome then
      match searchWith matchWinAt ln with
      | some v => some v
      | none => stage1 pdig rest
    else stage1 pdig rest

/-- Second fallback stage: `Player\s*<n>\b.*?win percentage...` with
`re.I | re.S`.  By leftmost-match semantics this is: find the first player
match in the whole text, then the first `win_re` match at or after its end
(a later player match starts no earlier than that end, since none of the
matched characters can start the literal `player` again, so if the first
player match has no following win pattern, none has). -/
def stage3 (pdig : List Char) (t : List Char) : Option ℚ :=
  match searchWith (playerAt pdig) t with
  | none => none
  | some rest => searchWith matchWinAt rest

/-- Third fallback stage: `WINRATE_PATTERNS[0].search` over the whole text. -/
def stage4 (t : List Char) : Option ℚ :=
  searchWith matchWin4At t

/-- Function `parse_winrate(text, player)`: `None` on empty text, else normalize the
commas, try the three fallback stages in order, and post-process the matched
value with `val / 100.0 if val > 1.0 else val`; `None` when every stage
fails. -/
def parse_winrate (text : String) (player : ℕ) : Option ℚ :=
  if text.data.isEmpty then none
  else
    let tn := normText text.data
    let pdig := (Nat.repr player).data
    match stage1 pdig (splitLines tn) with
    | some v => some (normVal v)
    | none =>
      match stage3 pdig tn with
      | some v => some (normVal v)
      | none =>
        match stage4 tn with
        | some v => some (normVal v)
        | none => none

/-- Lemma: `normVal` is exactly the source expression `val / 100.0 if val > 1.0 else val`. -/
theorem normVal_eq (v : ℚ) : normVal v = if v > 1 then v / 100 else v := by
  unfold normVal
  split
  · rw [Rat.mkRat_eq_divInt, Rat.divInt_eq_div]
    push_cast
    rw [← div_div, Rat.num_div_den]
  · rfl

/-!
## Simulation invoker

`run_simulator` in both variants wraps `subprocess.run`.  The external
process is abstracted as a pair of a running time and the text it produces;
`subprocess.run` raises `TimeoutExpired` exactly when it was given a timeout
smaller than the running time of the process, and never when no `timeout=`
argument was passed.  The blocking wait lasts for the running time of the process,
truncated by the timeout when one was passed.
-/

/-- One external simulator process: how long it runs and what it prints. -/
structure Proc where
  duration : ℕ
  output : String
deriving DecidableEq

/-- Result of `subprocess.run(cmd, ..., timeout=?)`. -/
inductive RunOutcome where
  | completed (out : String)
  | timedOut
deriving DecidableEq

/-- Model of `subprocess.run` with an optional `timeout=` keyword argument: with no
timeout the call blocks until the process finishes; with `timeout=t` it
raises `TimeoutExpired` when the process runs longer than `t`. -/
def subprocessRun (timeout : Option ℕ) (p : Proc) : RunOutcome :=
  match timeout with
  | none => .completed p.output
  | some t => if t < p.duration then .timedOut else .completed p.output

/-- How long the harness blocks on `subprocess.run`: the whole process
duration when no timeout was passed, else at most the timeout. -/
def waitDuration (timeout : Option ℕ) (p : Proc) : ℕ :=
  match timeout with
  | none => p.duration
  | some t => min p.duration t

/-- Function `run_simulator` of `evaluate_moves.py` (variant A, index mode): the
source calls `subprocess.run(cmd, stdout=..., stderr=..., check=False)`
WITHOUT forwarding its `timeout` parameter, so the `TimeoutExpired` handler
can never fire. -/
def run_simulator_A (timeout : ℕ) (p : Proc) : String :=
  match subprocessRun none p with
  | .completed out => out
  | .timedOut => "SIMULATOR_TIMEOUT"

/-- Blocking wait of the variant A `run_simulator`: unbounded, because no
`timeout=` was passed to `subprocess.run`. -/
def run_simulator_A_wait (timeout : ℕ) (p : Proc) : ℕ :=
  waitDuration none p

/-- Function `run_simulator` of `evaluate_moves_2.py` (variant B, file mode): here
`subprocess.run(..., timeout=timeout, check=False)` does receive the
timeout, and `TimeoutExpired` is mapped to the sentinel text. -/
def run_simulator_B (timeout : ℕ) (p : Proc) : String :=
  match subprocessRun (some timeout) p with
  | .completed out => out
  | .timedOut => "SIMULATOR_TIMEOUT"

/-- Blocking wait of the variant B `run_simulator`: bounded by the timeout. -/
def run_simulator_B_wait (timeout : ℕ) (p : Proc) : ℕ :=
  waitDuration (some timeout) p

/-!
## Boards, moves and the overlay engine (variant B)

Boards and moves are rectangular integer grids (`np.loadtxt` /
`np.array(pm)` values); the overlay is `np.where(pm_arr != 0, pm_arr,
board)`.
-/

/-- Test `pm_arr.shape == board.shape` for two list-of-list grids: same number of
rows and matching row lengths. -/
def shapeEqb (a b : List (List ℤ)) : Bool :=
  (a.length == b.length) && ((List.zip a b).all fun p => p.1.length == p.2.length)

/-- The obstacle test of `evaluate_moves_2.py` lines 89-92: some non-zero
cell of the move sits on a board cell whose value is 3. -/
def touchesObstacle (board move : List (List ℤ)) : Bool :=
  (List.zip board move).any fun p =>
    (List.zip p.1 p.2).any fun q => q.2 != 0 && q.1 == 3

/-- Overlay `np.where(pm_arr != 0, pm_arr, board)`: cellwise, the move value where
it is non-zero, the board value elsewhere. -/
def overlay (board move : List (List ℤ)) : List (List ℤ) :=
  List.zipWith (fun br mr => List.zipWith (fun b m => if m ≠ 0 then m else b) br mr)
    board move

/-- Row-major scan for the first non-zero move cell (`np.argwhere` order);
`(-1, -1)` when the move has no non-zero cell (lines 117-121). -/
def destOfAux : ℕ → List (List ℤ) → ℤ × ℤ
  | _, [] => (-1, -1)
  | i, r :: rest =>
    match r.findIdx? (fun z => z != 0) with
    | some j => ((i : ℤ), (j : ℤ))
    | none => destOfAux (i + 1) rest

/-- Destination coordinates reported for a move. -/
def destOf (move : List (List ℤ)) : ℤ × ℤ :=
  destOfAux 0 move

/-- Rendering of a grid as `np.savetxt(..., delimiter=",", fmt="%d")` writes it. -/
def renderBoard (b : List (List ℤ)) : String :=
  String.intercalate "\n" (b.map fun r => String.intercalate "," (r.map toString))

/-- The deterministic artifact filename: the board stem, then "_move", then
the move index, then ".csv" (the Python f-string on line 100). -/
def artifactName (stem : String) (mi : ℕ) : String :=
  stem ++ "_move" ++ Nat.repr mi ++ ".csv"

/-- Expression `sim_out[:400].replace("\n", " ") + ("..." if len(sim_out) > 400 else "")`,
the snippet computed (and then never written) on line 114. -/
def snippet (out : String) : String :=
  String.mk ((out.data.take 400).map fun c => if c = '\n' then ' ' else c) ++
    (if 400 < out.data.length then "..." else "")

/-!
## Variant B main loop (`evaluate_moves_2.py`, `main`)

The run is modelled as a fold over the board files and the enumerated move
catalog.  Observable effects are collected in a `RunState`: whether the
results file was opened (truncating it and writing the header), the result
rows written after the header, the artifact filesystem (an association list
from artifact path to file contents, looked up by `out_path.exists()` and
extended by `np.savetxt`), the simulator invocations, and the console log.
The external simulator is an oracle from the substituted input path to its
captured combined output.
-/

/-- One source board file: `src_csv.stem` plus the grid `np.loadtxt` reads
from it (its name is `stem ++ ".csv"`, having been found by `glob("*.csv")`). -/
structure BoardFile where
  stem : String
  board : List (List ℤ)
deriving DecidableEq

/-- Observable state of one variant B run. -/
structure RunState where
  resultsOpened : Bool
  rows : List (List String)
  artifacts : List (String × String)
  simCalls : List String
  logs : List String
deriving DecidableEq

/-- First binding of `name` in the artifact filesystem (`out_path.exists()`
plus the stored bytes). -/
def lookupFS (fs : List (String × String)) (name : String) : Option String :=
  match fs with
  | [] => none
  | (n, c) :: rest => if n = name then some c else lookupFS rest name

/-- The header row written once per run (line 78). -/
def headerRow : List String :=
  ["source_csv", "move_idx", "dest_row", "dest_col", "winrate",
   "sim_stdout_snippet", "modified_csv_path"]

/-- The result row of line 124: note that the sixth column is the literal
empty string — the `snippet` computed on line 114 is not what is written. -/
def makeRow (srcName : String) (mi : ℕ) (dr dc : ℤ) (win : Option ℚ)
    (outPath : String) : List String :=
  [srcName, Nat.repr mi, toString dr, toString dc,
   (match win with | some v => toString v | none => ""), "", outPath]

/-- Console message for a shape-mismatch skip (line 85). -/
def skipShapeMsg (srcName : String) (mi : ℕ) : String :=
  "skipping " ++ srcName ++ " move " ++ Nat.repr mi ++ ": shape mismatch"

/-- Console message for an obstacle skip (line 93). -/
def skipObstacleMsg (srcName : String) (mi : ℕ) : String :=
  "skipping " ++ srcName ++ " move " ++ Nat.repr mi ++
    ": attempts to modify obstacle cell(s)"

/-- Console message for artifact reuse (line 105). -/
def reuseMsg (name : String) : String :=
  "reusing existing modified csv: " ++ name

/-- Body of the inner `for mi, pm in enumerate(possible_moves)` loop of
variant B `main` for one `(board, move)` pair: shape check, obstacle check,
overlay, idempotent materialization, simulator invocation, win-rate parsing
and the result row. -/
def processPair (simOut : String → String) (outputDir : String)
    (st : RunState) (bf : BoardFile) (mi : ℕ) (move : List (List ℤ)) : RunState :=
  if shapeEqb move bf.board = false then
    { st with logs := st.logs ++ [skipShapeMsg (bf.stem ++ ".csv") mi] }
  else if touchesObstacle bf.board move then
    { st with logs := st.logs ++ [skipObstacleMsg (bf.stem ++ ".csv") mi] }
  else
    let modified := overlay bf.board move
    let outPath := outputDir ++ "/" ++ artifactName bf.stem mi
    let st1 :=
      if (lookupFS st.artifacts outPath).isSome then
        { st with logs := st.logs ++ [reuseMsg (artifactName bf.stem mi)] }
      else
        { st with artifacts := st.artifacts ++ [(outPath, renderBoard modified)] }
    let out := simOut outPath
    let st2 := { st1 with simCalls := st1.simCalls ++ [outPath] }
    let win := parse_winrate out 1
    let dest := destOf move
    let row := makeRow (bf.stem ++ ".csv") mi dest.1 dest.2 win outPath
    { st2 with rows := st2.rows ++ [row] }

/-- The enumerated inner loop over the move catalog for one board. -/
def runPairs (simOut : String → String) (outputDir : String) (bf : BoardFile)
    (pairs : List (ℕ × List (List ℤ))) (st : RunState) : RunState :=
  pairs.foldl (fun s p => processPair simOut outputDir s bf p.1 p.2) st

/-- The outer loop over the sorted board files. -/
def runBoards (simOut : String → String) (outputDir : String)
    (boards : List BoardFile) (cat : List (List (List ℤ))) (st : RunState) :
    RunState :=
  boards.foldl (fun s bf => runPairs simOut outputDir bf cat.enum s) st

/-- Function `main` of `evaluate_moves_2.py`: when the input directory holds no
`.csv` file, print a notice and return before the results file is opened;
otherwise truncate the results file, write the header and process every
(board, move) pair.  `fs` is the artifact filesystem as the run starts. -/
def mainB (simOut : String → String) (inputDir outputDir : String)
    (boards : List BoardFile) (cat : List (List (List ℤ)))
    (fs : List (String × String)) : RunState :=
  if boards.isEmpty then
    { resultsOpened := false, rows := [], artifacts := fs, simCalls := [],
      logs := ["No CSV files found " ++ inputDir] }
  else
    runBoards simOut outputDir boards cat
      { resultsOpened := true, rows := [], artifacts := fs, simCalls := [],
        logs := [] }

/-- Predicate for the premise of the per-line extraction claim: some line of
the text both matches `Player\s*<digits>\b` and contains the given literal
(case-insensitively), on that same line. -/
def playerLineWith (pdig pat : List Char) (text : String) : Bool :=
  (splitLines text.data).any fun ln =>
    (searchWith (playerAt pdig) ln).isSome &&
      (searchWith (stripCI pat) ln).isSome

/-- Effect of one `(board, move)` pair on the artifact filesystem alone:
nothing for a skipped pair; otherwise the idempotent materialization of
lines 100-107 (reuse the artifact when the path exists, else write it). -/
def artStep (outputDir : String) (bf : BoardFile) (mi : ℕ)
    (move : List (List ℤ)) (fs : List (String × String)) :
    List (String × String) :=
  if shapeEqb move bf.board = false then fs
  else if touchesObstacle bf.board move then fs
  else if (lookupFS fs (outputDir ++ "/" ++ artifactName bf.stem mi)).isSome then fs
  else fs ++ [(outputDir ++ "/" ++ artifactName bf.stem mi,
               renderBoard (overlay bf.board move))]

/-- The flattened list of `(board, move index, move)` work items of a run. -/
def stepsOf (boards : List BoardFile) (cat : List (List (List ℤ))) :
    List (BoardFile × ℕ × List (List ℤ)) :=
  boards.flatMap fun bf => cat.enum.map fun p => (bf, p.1, p.2)

/-- The artifact filesystem after a sequence of work items. -/
def artRun (outputDir : String) (steps : List (BoardFile × ℕ × List (List ℤ)))
    (fs : List (String × String)) : List (String × String) :=
  steps.foldl (fun f s => artStep outputDir s.1 s.2.1 s.2.2 f) fs

/-!
## Theorems
-/

/-- Bridge between the computable `mkRat` values and plain division. -/
theorem mkRat_eq_div (n : ℤ) (d : ℕ) : (mkRat n d : ℚ) = (n : ℚ) / (d : ℚ) := by
  rw [Rat.mkRat_eq_divInt, Rat.divInt_eq_div]
  norm_num

/-- C1: the claim says the blocking wait is bounded by the configured
timeout in BOTH variants, with the sentinel substituted on timeout.  The
code violates this in variant A (index mode): `evaluate_moves.py` line 78
calls `subprocess.run` without forwarding the `timeout` parameter, so for a
simulator running 120 s under a configured 60 s timeout the wait is 120 s,
the raw output is returned, and the sentinel is never produced; variant B
behaves as claimed. -/
theorem C1_timeout_bound_violated_in_index_mode :
    run_simulator_A 60 ⟨120, "late output"⟩ = "late output" ∧
    run_simulator_A 60 ⟨120, "late output"⟩ ≠ "SIMULATOR_TIMEOUT" ∧
    run_simulator_A_wait 60 ⟨120, "late output"⟩ = 120 ∧
    ¬(run_simulator_A_wait 60 ⟨120, "late output"⟩ ≤ 60) ∧
    run_simulator_B 60 ⟨120, "late output"⟩ = "SIMULATOR_TIMEOUT" ∧
    run_simulator_B_wait 60 ⟨120, "late output"⟩ = 60 :=
  ⟨rfl, by decide, rfl, by decide, rfl, rfl⟩

/-- C2: the claim (and the docstring of `parse_winrate`) says the result is
always `None` or a float in [0,1].  The code violates it: a matched number
above 100 is only divided by 100 once, so `"win percentage: 150"` parses to
1.5, outside the unit interval. -/
theorem C2_parse_winrate_exceeds_unit_interval :
    parse_winrate "win percentage: 150" 1 = some (3 / 2) ∧ ¬((3 / 2 : ℚ) ≤ 1) := by
  constructor
  · have h : parse_winrate "win percentage: 150" 1 = some (mkRat 3 2) := by decide
    rw [h, mkRat_eq_div]
    norm_num
  · norm_num

/-- C10: with no `.csv` board file in the input directory, variant B logs
the notice and returns before the results table is opened: the results file
is not created or truncated, no header or row is written, no simulator
invocation occurs, and the artifact filesystem is untouched. -/
theorem C10_empty_input_dir_short_circuits (simOut : String → String)
    (inputDir outputDir : String) (cat : List (List (List ℤ)))
    (fs : List (String × String)) :
    mainB simOut inputDir outputDir [] cat fs =
      { resultsOpened := false, rows := [], artifacts := fs, simCalls := [],
        logs := ["No CSV files found " ++ inputDir] } := rfl

/-- C9: the claim says the row carries a snippet of the captured simulator
output in the snippet column.  The code violates it: line 124 writes the
literal empty string in the `sim_stdout_snippet` column (the `snippet`
computed on line 114 is never used), even when the captured output is
non-empty — here the simulator prints `"Player 1 win percentage: 60%"`, the
snippet of that output is the output itself, yet the column holds `""`.
The remaining columns do align with the header, and a missing win rate is
an empty field. -/
theorem C9_snippet_column_always_empty :
    (processPair (fun _ => "Player 1 win percentage: 60%") "out"
        ⟨true, [], [], [], []⟩ ⟨"board1", [[0, 0], [0, 0]]⟩ 0 [[1, 0], [0, 0]]).rows =
      [["board1.csv", "0", "0", "0", "3/5", "", "out/board1_move0.csv"]] ∧
    snippet "Player 1 win percentage: 60%" = "Player 1 win percentage: 60%" ∧
    "Player 1 win percentage: 60%" ≠ "" := by
  refine ⟨by decide, by decide, by decide⟩

/-- C4: a variant B pair whose move shape differs from the board shape, or
whose move has a non-zero cell on an obstacle (value 3) board cell, is
skipped: no artifact written, no simulator invocation, no result row, one
console log line appended, and the loop goes on with the remaining pairs. -/
theorem C4_mismatched_pairs_skipped (simOut : String → String)
    (outputDir : String) (st : RunState) (bf : BoardFile) (mi : ℕ)
    (move : List (List ℤ)) (rest : List (ℕ × List (List ℤ)))
    (h : shapeEqb move bf.board = false ∨ touchesObstacle bf.board move = true) :
    (processPair simOut outputDir st bf mi move).rows = st.rows ∧
    (processPair simOut outputDir st bf mi move).artifacts = st.artifacts ∧
    (processPair simOut outputDir st bf mi move).simCalls = st.simCalls ∧
    (∃ msg, (processPair simOut outputDir st bf mi move).logs = st.logs ++ [msg]) ∧
    runPairs simOut outputDir bf ((mi, move) :: rest) st =
      runPairs simOut outputDir bf rest (processPair simOut outputDir st bf mi move) := by
  by_cases hs : shapeEqb move bf.board = false
  · have hpp : processPair simOut outputDir st bf mi move =
        { st with logs := st.logs ++ [skipShapeMsg (bf.stem ++ ".csv") mi] } := by
      rw [processPair, if_pos hs]
    have hrun : runPairs simOut outputDir bf ((mi, move) :: rest) st =
        runPairs simOut outputDir bf rest (processPair simOut outputDir st bf mi move) := rfl
    rw [hpp] at hrun
    rw [hpp]
    exact ⟨rfl, rfl, rfl, ⟨_, rfl⟩, hrun⟩
  · have ho : touchesObstacle bf.board move = true := by
      rcases h with h | h
      · exact absurd h hs
      · exact h
    have hpp : processPair simOut outputDir st bf mi move =
        { st with logs := st.logs ++ [skipObstacleMsg (bf.stem ++ ".csv") mi] } := by
      rw [processPair, if_neg hs, if_pos ho]
    have hrun : runPairs simOut outputDir bf ((mi, move) :: rest) st =
        runPairs simOut outputDir bf rest (processPair simOut outputDir st bf mi move) := rfl
    rw [hpp] at hrun
    rw [hpp]
    exact ⟨rfl, rfl, rfl, ⟨_, rfl⟩, hrun⟩

/-- Witness for C4 at a concrete obstacle collision: a 1×1 board holding an
obstacle and a move writing into that cell. -/
theorem C4_mismatched_pairs_skipped_witness :
    (processPair (fun _ => "") "out" ⟨true, [], [], [], []⟩ ⟨"b", [[3]]⟩ 0 [[1]]).rows = [] ∧
    (processPair (fun _ => "") "out" ⟨true, [], [], [], []⟩ ⟨"b", [[3]]⟩ 0 [[1]]).artifacts = [] ∧
    (processPair (fun _ => "") "out" ⟨true, [], [], [], []⟩ ⟨"b", [[3]]⟩ 0 [[1]]).simCalls = [] ∧
    (∃ msg, (processPair (fun _ => "") "out" ⟨true, [], [], [], []⟩ ⟨"b", [[3]]⟩ 0 [[1]]).logs =
      [] ++ [msg]) ∧
    runPairs (fun _ => "") "out" ⟨"b", [[3]]⟩ [(0, [[1]])] ⟨true, [], [], [], []⟩ =
      runPairs (fun _ => "") "out" ⟨"b", [[3]]⟩ []
        (processPair (fun _ => "") "out" ⟨true, [], [], [], []⟩ ⟨"b", [[3]]⟩ 0 [[1]]) :=
  C4_mismatched_pairs_skipped (fun _ => "") "out" ⟨true, [], [], [], []⟩ ⟨"b", [[3]]⟩ 0 [[1]] []
    (Or.inr (by decide))

/-- C5: commas are turned into periods before matching, and a matched value
above 1 is divided by 100 exactly once while a value at most 1 is used
unchanged, for integer and decimal matches alike; in particular
`"win percentage=45,5%"` parses to 0.455 and `"win percentage: 0.8"` to
0.8. -/
theorem C5_numeric_normalization :
    (∀ v : ℚ, (1 < v → normVal v = v / 100) ∧ (v ≤ 1 → normVal v = v)) ∧
    parse_winrate "win percentage=45,5%" 1 = some (455 / 1000) ∧
    parse_winrate "win percentage: 0.8" 1 = some (8 / 10) := by
  refine ⟨fun v => ⟨fun h => ?_, fun h => ?_⟩, ?_, ?_⟩
  · rw [normVal_eq, if_pos h]
  · rw [normVal_eq, if_neg (not_lt.mpr h)]
  · have h : parse_winrate "win percentage=45,5%" 1 = some (mkRat 455 1000) := by decide
    rw [h, mkRat_eq_div]
    norm_num
  · have h : parse_winrate "win percentage: 0.8" 1 = some (mkRat 4 5) := by decide
    rw [h, mkRat_eq_div]
    norm_num

/-- Witness for C5 at concrete values on both sides of the threshold. -/
theorem C5_numeric_normalization_witness :
    normVal 45 = 45 / 100 ∧ normVal (1 / 2) = 1 / 2 ∧
    parse_winrate "win percentage=45,5%" 1 = some (455 / 1000) :=
  ⟨(C5_numeric_normalization.1 45).1 (by norm_num),
   (C5_numeric_normalization.1 (1 / 2)).2 (by norm_num),
   C5_numeric_normalization.2.1⟩

/-- C6 fails as stated: this text contains a line that mentions `Player 1`
(whole word, case-insensitively) together with `win percentage: 73%` on the
same line, yet extraction for player 1 yields 0.5, because an earlier
player-tagged line reports a different percentage and the line scan returns
its first hit. -/
theorem C6_counterexample_earlier_player_line :
    playerLineWith (Nat.repr 1).data "win percentage: 73%".data
      "Player 1 win percentage: 50%\nPlayer 1 win percentage: 73%" = true ∧
    parse_winrate "Player 1 win percentage: 50%\nPlayer 1 win percentage: 73%" 1 =
      some (1 / 2) ∧
    (1 / 2 : ℚ) ≠ 73 / 100 := by
  refine ⟨by decide, ?_, by norm_num⟩
  have h : parse_winrate "Player 1 win percentage: 50%\nPlayer 1 win percentage: 73%" 1 =
      some (mkRat 1 2) := by decide
  rw [h, mkRat_eq_div]
  norm_num

/-- C6 (amended): for any text whose FIRST line that both mentions player 1
and contains a win-percentage pattern reports the value 73, extraction for
player 1 yields 0.73. -/
theorem C6_first_player_line_hit (text : String)
    (h : stage1 (Nat.repr 1).data (splitLines (normText text.data)) = some 73) :
    parse_winrate text 1 = some (73 / 100) := by
  have hne : text.data.isEmpty = false := by
    cases hd : text.data with
    | nil => rw [hd] at h; exact absurd h (by decide)
    | cons c cs => rfl
  simp only [parse_winrate, hne, Bool.false_eq_true, if_false, h]
  rw [normVal_eq]
  norm_num

/-- Witness for C6 (amended) at the one-line text of the original claim. -/
theorem C6_first_player_line_hit_witness :
    stage1 (Nat.repr 1).data (splitLines (normText "Player 1 win percentage: 73%".data)) =
      some 73 ∧
    parse_winrate "Player 1 win percentage: 73%" 1 = some (73 / 100) :=
  ⟨by decide, C6_first_player_line_hit _ (by decide)⟩

/-- C7: when no fallback stage finds a win-percentage pattern, the extractor
returns `None` for the requested player, without raising (it is a total
function). -/
theorem C7_no_pattern_yields_unknown (text : String) (player : ℕ)
    (h1 : stage1 (Nat.repr player).data (splitLines (normText text.data)) = none)
    (h3 : stage3 (Nat.repr player).data (normText text.data) = none)
    (h4 : stage4 (normText text.data) = none) :
    parse_winrate text player = none := by
  simp only [parse_winrate]
  split
  · rfl
  · rw [h1, h3, h4]

/-- Witness for C7: both sentinel outputs contain no win-percentage pattern
at any stage and parse to `None`. -/
theorem C7_no_pattern_yields_unknown_witness :
    parse_winrate "SIMULATOR_TIMEOUT" 1 = none ∧
    parse_winrate "SIMULATOR_ERROR: [Errno 2] No such file or directory" 1 = none :=
  ⟨C7_no_pattern_yields_unknown "SIMULATOR_TIMEOUT" 1 (by decide) (by decide) (by decide),
   C7_no_pattern_yields_unknown "SIMULATOR_ERROR: [Errno 2] No such file or directory" 1
     (by decide) (by decide) (by decide)⟩

/-- Value of `getD` on a `zipWith` at an index inside both lists. -/
theorem getD_zipWith {α β γ : Type} (f : α → β → γ) (a : List α) (b : List β)
    (i : ℕ) (da : α) (db : β) (dc : γ) (h1 : i < a.length) (h2 : i < b.length) :
    (List.zipWith f a b).getD i dc = f (a.getD i da) (b.getD i db) := by
  induction a generalizing b i with
  | nil => simp at h1
  | cons x xs ih =>
    cases b with
    | nil => simp at h2
    | cons y ys =>
      cases i with
      | zero => rfl
      | succ n =>
        simp only [List.zipWith_cons_cons, List.getD_cons_succ]
        exact ih ys n (by simpa using h1) (by simpa using h2)

/-- Equal shapes give equal numbers of rows. -/
theorem shapeEqb_length {a b : List (List ℤ)} (h : shapeEqb a b = true) :
    a.length = b.length := by
  unfold shapeEqb at h
  simp only [Bool.and_eq_true, beq_iff_eq] at h
  exact h.1

/-- Equal shapes give equal row lengths at every row index. -/
theorem shapeEqb_row {a b : List (List ℤ)} (h : shapeEqb a b = true) :
    ∀ i, i < a.length → (a.getD i []).length = (b.getD i []).length := by
  induction a generalizing b with
  | nil => intro i hi; simp at hi
  | cons x xs ih =>
    cases b with
    | nil =>
      exfalso
      unfold shapeEqb at h
      simp at h
    | cons y ys =>
      have h' : x.length = y.length ∧ shapeEqb xs ys = true := by
        unfold shapeEqb at h ⊢
        simp only [List.zip_cons_cons, List.all_cons, List.length_cons,
          Bool.and_eq_true, beq_iff_eq, Nat.succ.injEq] at h ⊢
        exact ⟨h.2.1, h.1, h.2.2⟩
      intro i hi
      cases i with
      | zero => simpa using h'.1
      | succ n => exact ih h'.2 n (by simpa using hi)

/-- C3: for a move whose shape equals the board shape and which passes the
obstacle check, the overlay holds, in every cell, the value of the move where
it is non-zero and the original value of the board elsewhere. -/
theorem C3_overlay_cellwise (board move : List (List ℤ))
    (hs : shapeEqb move board = true)
    (ho : touchesObstacle board move = false)
    (i j : ℕ) (hi : i < board.length) (hj : j < (board.getD i []).length) :
    ((overlay board move).getD i []).getD j 0 =
      if (move.getD i []).getD j 0 ≠ 0 then (move.getD i []).getD j 0
      else (board.getD i []).getD j 0 := by
  have hlen : move.length = board.length := shapeEqb_length hs
  have hrow : (move.getD i []).length = (board.getD i []).length :=
    shapeEqb_row hs i (by omega)
  have h1 : (overlay board move).getD i [] =
      List.zipWith (fun b m => if m ≠ 0 then m else b) (board.getD i [])
        (move.getD i []) := by
    unfold overlay
    exact getD_zipWith _ board move i [] [] [] hi (by omega)
  rw [h1, getD_zipWith (fun b m => if m ≠ 0 then m else b) (board.getD i [])
    (move.getD i []) j 0 0 0 hj (by omega)]

/-- Witness for C3: a 2×2 board with an obstacle elsewhere, a move writing 1
into the top-left cell. -/
theorem C3_overlay_cellwise_witness :
    shapeEqb [[1, 0], [0, 0]] [[0, 2], [3, 0]] = true ∧
    touchesObstacle [[0, 2], [3, 0]] [[1, 0], [0, 0]] = false ∧
    ((overlay [[0, 2], [3, 0]] [[1, 0], [0, 0]]).getD 0 []).getD 0 0 =
      if (([[1, 0], [0, 0]].getD 0 []).getD 0 0 : ℤ) ≠ 0 then
        ([[1, 0], [0, 0]].getD 0 []).getD 0 0
      else ([[0, 2], [3, 0]].getD 0 []).getD 0 0 :=
  ⟨by decide, by decide,
   C3_overlay_cellwise [[0, 2], [3, 0]] [[1, 0], [0, 0]] (by decide) (by decide) 0 0
     (by decide) (by decide)⟩

/-- An existing binding survives appending further bindings. -/
theorem lookupFS_append_left {fs : List (String × String)} {n : String}
    {c : String} (h : lookupFS fs n = some c) (l : List (String × String)) :
    lookupFS (fs ++ l) n = some c := by
  induction fs with
  | nil => simp [lookupFS] at h
  | cons p rest ih =>
    obtain ⟨pn, pc⟩ := p
    rw [List.cons_append]
    simp only [lookupFS] at h ⊢
    by_cases hp : pn = n
    · rw [if_pos hp] at h ⊢
      exact h
    · rw [if_neg hp] at h ⊢
      exact ih h

/-- Appending a fresh binding makes it visible. -/
theorem lookupFS_append_self {fs : List (String × String)} {n c : String}
    (h : lookupFS fs n = none) : lookupFS (fs ++ [(n, c)]) n = some c := by
  induction fs with
  | nil => simp [lookupFS]
  | cons p rest ih =>
    obtain ⟨pn, pc⟩ := p
    rw [List.cons_append]
    simp only [lookupFS] at h ⊢
    by_cases hp : pn = n
    · rw [if_pos hp] at h
      exact absurd h (by simp)
    · rw [if_neg hp] at h ⊢
      exact ih h

/-- The artifact filesystem reached by `processPair` is `artStep` of the
incoming one: the effect of the pair on artifacts is independent of the rest of
the run state. -/
theorem processPair_artifacts (simOut : String → String) (outputDir : String)
    (st : RunState) (bf : BoardFile) (mi : ℕ) (move : List (List ℤ)) :
    (processPair simOut outputDir st bf mi move).artifacts =
      artStep outputDir bf mi move st.artifacts := by
  by_cases h1 : shapeEqb move bf.board = false
  · simp [processPair, artStep, h1]
  · by_cases h2 : touchesObstacle bf.board move = true
    · simp [processPair, artStep, h1, h2]
    · by_cases h3 :
        (lookupFS st.artifacts (outputDir ++ "/" ++ artifactName bf.stem mi)).isSome
      · simp [processPair, artStep, h1, h2, h3]
      · simp [processPair, artStep, h1, h2, h3]

/-- The artifacts after the inner move loop are the fs-level fold. -/
theorem runPairs_artifacts (simOut : String → String) (outputDir : String)
    (bf : BoardFile) (pairs : List (ℕ × List (List ℤ))) (st : RunState) :
    (runPairs simOut outputDir bf pairs st).artifacts =
      artRun outputDir (pairs.map fun p => (bf, p.1, p.2)) st.artifacts := by
  induction pairs generalizing st with
  | nil => rfl
  | cons p ps ih =>
    have h0 : runPairs simOut outputDir bf (p :: ps) st =
        runPairs simOut outputDir bf ps (processPair simOut outputDir st bf p.1 p.2) :=
      rfl
    rw [h0, ih, processPair_artifacts]
    rfl

/-- Folding work items over a concatenation is the composition of folds. -/
theorem artRun_append (outputDir : String)
    (l1 l2 : List (BoardFile × ℕ × List (List ℤ))) (fs : List (String × String)) :
    artRun outputDir (l1 ++ l2) fs = artRun outputDir l2 (artRun outputDir l1 fs) := by
  simp [artRun, List.foldl_append]

/-- The artifacts after the outer board loop are the fs-level fold over the
flattened work items. -/
theorem runBoards_artifacts (simOut : String → String) (outputDir : String)
    (boards : List BoardFile) (cat : List (List (List ℤ))) (st : RunState) :
    (runBoards simOut outputDir boards cat st).artifacts =
      artRun outputDir (stepsOf boards cat) st.artifacts := by
  induction boards generalizing st with
  | nil => rfl
  | cons bf bs ih =>
    have h0 : runBoards simOut outputDir (bf :: bs) cat st =
        runBoards simOut outputDir bs cat (runPairs simOut outputDir bf cat.enum st) :=
      rfl
    have hsteps : stepsOf (bf :: bs) cat =
        (cat.enum.map fun p => (bf, p.1, p.2)) ++ stepsOf bs cat := by
      simp [stepsOf]
    rw [h0, ih, runPairs_artifacts, hsteps, artRun_append]

/-- The artifacts of a whole variant B run, including the empty-input case. -/
theorem mainB_artifacts (simOut : String → String) (inputDir outputDir : String)
    (boards : List BoardFile) (cat : List (List (List ℤ)))
    (fs : List (String × String)) :
    (mainB simOut inputDir outputDir boards cat fs).artifacts =
      artRun outputDir (stepsOf boards cat) fs := by
  cases boards with
  | nil => rfl
  | cons bf bs =>
    have h0 : mainB simOut inputDir outputDir (bf :: bs) cat fs =
        runBoards simOut outputDir (bf :: bs) cat
          { resultsOpened := true, rows := [], artifacts := fs, simCalls := [],
            logs := [] } := rfl
    rw [h0, runBoards_artifacts]

/-- One `artStep` never destroys an existing binding. -/
theorem artStep_preserves (outputDir : String) (bf : BoardFile) (mi : ℕ)
    (move : List (List ℤ)) {fs : List (String × String)} {n c : String}
    (h : lookupFS fs n = some c) :
    lookupFS (artStep outputDir bf mi move fs) n = some c := by
  unfold artStep
  split
  · exact h
  · split
    · exact h
    · split
      · exact h
      · exact lookupFS_append_left h _

/-- A whole fs-level run never destroys an existing binding. -/
theorem artRun_preserves (outputDir : String)
    (steps : List (BoardFile × ℕ × List (List ℤ))) {fs : List (String × String)}
    {n c : String} (h : lookupFS fs n = some c) :
    lookupFS (artRun outputDir steps fs) n = some c := by
  induction steps generalizing fs with
  | nil => exact h
  | cons s ss ih => exact ih (artStep_preserves _ _ _ _ h)

/-- After a non-skipped `artStep`, the artifact path of the pair is bound. -/
theorem artStep_mem (outputDir : String) (bf : BoardFile) (mi : ℕ)
    (move : List (List ℤ)) (fs : List (String × String))
    (hsh : shapeEqb move bf.board = true)
    (hob : touchesObstacle bf.board move = false) :
    (lookupFS (artStep outputDir bf mi move fs)
      (outputDir ++ "/" ++ artifactName bf.stem mi)).isSome = true := by
  unfold artStep
  rw [if_neg (by simp [hsh]), if_neg (by simp [hob])]
  by_cases h3 :
      (lookupFS fs (outputDir ++ "/" ++ artifactName bf.stem mi)).isSome = true
  · rw [if_pos h3]
    exact h3
  · rw [if_neg h3]
    have hnone : lookupFS fs (outputDir ++ "/" ++ artifactName bf.stem mi) = none :=
      Option.not_isSome_iff_eq_none.mp (by simpa using h3)
    rw [lookupFS_append_self hnone]
    rfl

/-- When the artifact path of a pair is already bound, `artStep` is a no-op:
the existing artifact is reused verbatim. -/
theorem artStep_absorb (outputDir : String) (bf : BoardFile) (mi : ℕ)
    (move : List (List ℤ)) (fs : List (String × String))
    (h : (lookupFS fs (outputDir ++ "/" ++ artifactName bf.stem mi)).isSome = true) :
    artStep outputDir bf mi move fs = fs := by
  unfold artStep
  rw [if_pos h]
  split
  · rfl
  · split
    · rfl
    · rfl

/-- Running the same work items a second time changes nothing on the
artifact filesystem. -/
theorem artRun_idem (outputDir : String)
    (steps : List (BoardFile × ℕ × List (List ℤ))) (fs : List (String × String)) :
    artRun outputDir steps (artRun outputDir steps fs) = artRun outputDir steps fs := by
  induction steps generalizing fs with
  | nil => rfl
  | cons s ss ih =>
    obtain ⟨bf, mi, move⟩ := s
    have hcons : ∀ g, artRun outputDir ((bf, mi, move) :: ss) g =
        artRun outputDir ss (artStep outputDir bf mi move g) := fun g => rfl
    rw [hcons, hcons]
    have habs : artStep outputDir bf mi move
        (artRun outputDir ss (artStep outputDir bf mi move fs)) =
        artRun outputDir ss (artStep outputDir bf mi move fs) := by
      by_cases h1 : shapeEqb move bf.board = false
      · unfold artStep
        rw [if_pos h1]
      · by_cases h2 : touchesObstacle bf.board move = true
        · unfold artStep
          rw [if_neg h1, if_pos h2]
        · have hsh : shapeEqb move bf.board = true := by
            cases hv : shapeEqb move bf.board
            · exact absurd hv h1
            · rfl
          have hob : touchesObstacle bf.board move = false := by
            cases hv : touchesObstacle bf.board move
            · rfl
            · exact absurd hv h2
          have hk := artStep_mem outputDir bf mi move fs hsh hob
          obtain ⟨c, hc⟩ := Option.isSome_iff_exists.mp hk
          have hc2 := artRun_preserves outputDir ss hc
          exact artStep_absorb outputDir bf mi move _ (by rw [hc2]; rfl)
    rw [habs, ih]

/-- C8: artifact materialization is idempotent.  The artifact path is the
deterministic function `artifactName` of the source board stem and the move
index; a binding already present when a run starts is still present,
unchanged, afterwards (existing artifacts are reused byte-for-byte); and a
second variant B run over the same input directory — even under a different
simulator oracle — leaves the artifact filesystem of the first run exactly
as it was. -/
theorem C8_artifact_materialization_idempotent (simOut simOut2 : String → String)
    (inputDir inputDir2 outputDir : String) (boards : List BoardFile)
    (cat : List (List (List ℤ))) (fs : List (String × String)) :
    (∀ n c, lookupFS fs n = some c →
      lookupFS (mainB simOut inputDir outputDir boards cat fs).artifacts n = some c) ∧
    (mainB simOut2 inputDir2 outputDir boards cat
        (mainB simOut inputDir outputDir boards cat fs).artifacts).artifacts =
      (mainB simOut inputDir outputDir boards cat fs).artifacts := by
  constructor
  · intro n c h
    rw [mainB_artifacts]
    exact artRun_preserves _ _ h
  · simp only [mainB_artifacts]
    exact artRun_idem _ _ _

/-- Witness for C8: one board, one move, one pre-existing unrelated artifact
binding that survives the run unchanged. -/
theorem C8_artifact_materialization_idempotent_witness :
    lookupFS [("keep.csv", "data")] "keep.csv" = some "data" ∧
    lookupFS (mainB (fun _ => "") "in" "out" [⟨"b", [[0]]⟩] [[[1]]]
      [("keep.csv", "data")]).artifacts "keep.csv" = some "data" :=
  ⟨by decide,
   (C8_artifact_materialization_idempotent (fun _ => "") (fun _ => "") "in" "in" "out"
     [⟨"b", [[0]]⟩] [[[1]]] [("keep.csv", "data")]).1 "keep.csv" "data" (by decide)⟩

end MoveEval
